import Mathlib

/-!
Verification of the RAG tool façade in `src/mcp_server/tools/rag_tools.py`.

The repository's only source file is a thin layer of methods on `RAGTools`
that sequence calls against an external vector table (`self.pipeline.table`),
an embedding client (`self.pipeline.embed`) and a document converter.  We
embed the vector table as a list of rows, each row carrying the chunk text,
its embedding vector and an association list of metadata, exactly the three
keys the Python code reads and writes (`text`, `vector`, `metadata`).  The
external collaborators (vector-table engine, embedding model, converter) are
modelled from the spec, which describes the table as a persistent store
"mapping chunk text+metadata to an embedding vector, supporting filtered
search/delete/add".
-/

namespace RAGTools

/-- Chunk metadata: a finite map of string keys to string values, embedded
as an association list, matching the Python dicts such as
`\x7b"project": "Alpha", "tahun": "2024"\x7d`. -/
abbrev Metadata := List (String × String)

/-- Dictionary lookup on the association list: value of the first pair with
the given key, as Python `m.get(k)`. -/
def mlookup (m : Metadata) (k : String) : Option String :=
  (m.find? (fun kv => kv.1 = k)).map (fun kv => kv.2)

/-- One vector-store row, the shape the code reads from pandas frames and
passes to `table.add`: chunk text, embedding vector, metadata dict. -/
structure Row where
  text : String
  vector : List Int
  metadata : Metadata
deriving DecidableEq

/-- The vector table, modelled from the spec as the multiset of its rows
(embedded as a list; `add` appends, filtered `delete` removes). -/
abbrev Table := List Row

/-- A metadata filter matches a row when every key/value pair of the filter
equals the row metadata at that key.  This embeds the conjunction
`metadata.k1 = v1 AND metadata.k2 = v2 AND ...` that
`update_chunk_metadata` builds from the `metadata_filter` dict. -/
def matchesFilter (f : Metadata) (m : Metadata) : Bool :=
  f.all (fun kv => mlookup m kv.1 == some kv.2)

/-- Modelled from the spec: the external table's filtered search
(`table.search(...).where(filter_expr).limit(None)`) returns every row
matching the filter. -/
def searchWhere (t : Table) (f : Metadata) : List Row :=
  t.filter (fun r => matchesFilter f r.metadata)

/-- Modelled from the spec: the external table's filtered delete
(`table.delete(filter_expr)`) removes every row matching the filter. -/
def tableDelete (t : Table) (f : Metadata) : Table :=
  t.filter (fun r => !matchesFilter f r.metadata)

/-- Modelled from the spec: the external table's `add(entries)` appends the
given rows to the store. -/
def tableAdd (t : Table) (entries : List Row) : Table :=
  t ++ entries

/-- Python dict merge `\x7b**old, **new\x7d`: keys of `old` keep their order
with values overridden by `new` where present, then the keys appearing only
in `new` follow. -/
def mergeMeta (old new : Metadata) : Metadata :=
  old.map (fun kv =>
    match mlookup new kv.1 with
    | some v => (kv.1, v)
    | none => kv) ++
  new.filter (fun kv => (mlookup old kv.1).isNone)

/-- The rewritten copy of a fetched row built in the loop of
`update_chunk_metadata`: same text, same vector, metadata merged as
`\x7b**row["metadata"], **new_metadata\x7d`. -/
def updateRow (new_metadata : Metadata) (r : Row) : Row :=
  { r with metadata := mergeMeta r.metadata new_metadata }

/-- `RAGTools.update_chunk_metadata`: fetch all rows matching the filter;
if none, return 0 with the table untouched; otherwise delete the old rows
(the delete sits in a try/except, so a raising delete is caught and skipped,
modelled by the `deleteRaises` flag), then add the rewritten copies and
return how many.  Returns the final table and the returned count. -/
def update_chunk_metadata (t : Table) (metadata_filter new_metadata : Metadata)
    (deleteRaises : Bool) : Table × Nat :=
  let df := searchWhere t metadata_filter
  if df.isEmpty then (t, 0)
  else
    let afterDelete := if deleteRaises then t else tableDelete t metadata_filter
    let updated_entries := df.map (updateRow new_metadata)
    (tableAdd afterDelete updated_entries, updated_entries.length)

/-- The list of distinct values in first-occurrence order, as the pandas
`Series.unique()` used by `get_vectorstore_stats`. -/
def uniqueFirst : List String → List String
  | [] => []
  | x :: xs => x :: uniqueFirst (xs.filter (fun y => y ≠ x))
termination_by l => l.length
decreasing_by
  simp only [List.length_cons]
  exact Nat.lt_succ_of_le (List.length_filter_le _ _)

/-- Frequency table of a list of values as the pandas
`value_counts().to_dict()`: one pair per distinct value, mapping it to the
number of occurrences.  (pandas orders by descending count; the dict view
used by the code makes the order immaterial.) -/
def value_counts (l : List String) : List (String × Nat) :=
  (uniqueFirst l).map (fun v => (v, l.count v))

/-- The metadata key "project" read by `get_vectorstore_stats`. -/
def projectKey : String := "project"

/-- The metadata key "tahun" read by `get_vectorstore_stats`. -/
def tahunKey : String := "tahun"

/-- The result dict of `get_vectorstore_stats`. -/
structure Stats where
  total_rows : Nat
  size_mb : Nat
  projects : List String
  tahun_distribution : List (String × Nat)
deriving DecidableEq

/-- `RAGTools.get_vectorstore_stats`: row count, persist-directory size
(supplied here as a byte count, an effect of the filesystem, not of the
table), distinct non-null `project` values, and the `tahun` frequency
dict.  The method only reads the table, so it is a pure function of it. -/
def get_vectorstore_stats (t : Table) (size_bytes : Nat) : Table × Stats :=
  (t,
    { total_rows := t.length
      size_mb := size_bytes / (1024 * 1024)
      projects := uniqueFirst (t.filterMap (fun r => mlookup r.metadata projectKey))
      tahun_distribution :=
        value_counts (t.filterMap (fun r => mlookup r.metadata tahunKey)) })

/-- `RAGTools.retrieval_with_filter`: pure delegation to
`self.pipeline.retrieval(query=query, k=k, metadata_filter=metadata_filter)`.
The pipeline's retrieval is repository code outside `src/`, modelled from
the spec as an arbitrary function supplied as a parameter; the method body
performs no operation on the table, so the table state passes through. -/
def retrieval_with_filter (t : Table)
    (retrieval : String → Option Nat → Option Metadata → String)
    (query : String) (k : Option Nat) (metadata_filter : Option Metadata) :
    Table × String :=
  (t, retrieval query k metadata_filter)

/-- Modelled from the spec: `RAGPipeline.reset_vectorstore` is repository
code outside `src/`; its caller's docstring says it deletes and recreates
the whole vectorstore, so it yields the empty table. -/
def reset_vectorstore : Table := []

/-- Modelled from the spec: `RAGPipeline._validate_vector_dim` is repository
code outside `src/`; it raises when the embedding vector's length differs
from the pipeline's vector dimension. -/
def validate_vector_dim (vector_dim : Nat) (vec : List Int) : Except String Unit :=
  if vec.length = vector_dim then Except.ok () else Except.error ("vector dim mismatch")

/-- The entry-building loop of `rebuild_all_embeddings`: embed each row's
text (`embed` returns `Except` since the external embedding call can
raise), validate the dimension, and collect
`\x7btext, vector, metadata\x7d` entries; the first raise aborts the loop
with the exception. -/
def rebuildEntries (embed : String → Except String (List Int)) (vector_dim : Nat) :
    List Row → Except String (List Row)
  | [] => Except.ok []
  | r :: rs =>
    match embed r.text with
    | Except.error e => Except.error e
    | Except.ok vec =>
      match validate_vector_dim vector_dim vec with
      | Except.error e => Except.error e
      | Except.ok _ =>
        match rebuildEntries embed vector_dim rs with
        | Except.error e => Except.error e
        | Except.ok es => Except.ok (⟨r.text, vec, r.metadata⟩ :: es)

/-- `RAGTools.rebuild_all_embeddings`: read all rows, re-embed every text
with validation (any raise propagates before the store is touched, leaving
the table as it was), then reset the store and add the rebuilt entries.
`batch_size` is the method's parameter (default 100); the body never reads
it.  Returns the final table and the propagated exception, if any. -/
def rebuild_all_embeddings (t : Table) (embed : String → Except String (List Int))
    (vector_dim : Nat) (batch_size : Nat) : Table × Option String :=
  match rebuildEntries embed vector_dim t with
  | Except.error e => (t, some e)
  | Except.ok entries => (tableAdd reset_vectorstore entries, none)

/-- One PDF file of the ingestion directory: its file name and the result
of `DocumentConverter().convert` together with the per-file work in the
`try` block — `none` when that block raises (the exception is caught and
the file skipped), otherwise the parsed document as its text segments. -/
structure PdfFile where
  name : String
  converted : Option (List String)
deriving DecidableEq

/-- Modelled from the spec: `RAGPipeline._chunk_document` is repository
code outside `src/`; per the spec each chunk is "a segment of parsed
document text with attached project/year metadata, stored as one
vector-store row", so it yields one row per segment carrying the filename,
project and tahun metadata. -/
def chunk_document (embed : String → List Int) (doc : List String)
    (filename project tahun : String) : List Row :=
  doc.map (fun s =>
    ⟨s, embed s, [("filename", filename), (projectKey, project), (tahunKey, tahun)]⟩)

/-- The entry-accumulation loop shared by both ingestion methods: chunks of
every successfully converted PDF, in order; a failed file contributes
nothing. -/
def ingestEntries (embed : String → List Int) (pdfs : List PdfFile)
    (project tahun : String) : List Row :=
  pdfs.foldl (fun acc pdf =>
    match pdf.converted with
    | some doc => acc ++ chunk_document embed doc pdf.name project tahun
    | none => acc) []

/-- `RAGTools.add_product_knowledge`: glob the PDFs (supplied here as the
list `pdfs`); return with the table untouched when there are none;
otherwise convert and chunk each (failures skipped) and add the collected
entries, or nothing when every file failed. -/
def add_product_knowledge (t : Table) (embed : String → List Int)
    (pdfs : List PdfFile) (project_name tahun : String) : Table :=
  if pdfs.isEmpty then t
  else
    let entries := ingestEntries embed pdfs project_name tahun
    if entries.isEmpty then t else tableAdd t entries

/-- Python `x or default` on an optional string: `None` and the empty
string are falsy and give the default. -/
def pyOrDefault (x : Option String) (default : String) : String :=
  match x with
  | none => default
  | some s => if s = "" then default else s

/-- `RAGTools.add_kak_tor_knowledge`: like `add_product_knowledge` but the
per-file `try` block also exports the document to Markdown (a filesystem
effect outside the table, absorbed into `converted`), and the metadata
project/tahun are the Python expressions
`project or "kak_tor"` and `tahun or "2025"`. -/
def add_kak_tor_knowledge (t : Table) (embed : String → List Int)
    (pdfs : List PdfFile) (project tahun : Option String) : Table :=
  if pdfs.isEmpty then t
  else
    let entries := ingestEntries embed pdfs
      (pyOrDefault project ("kak_tor")) (pyOrDefault tahun ("2025"))
    if entries.isEmpty then t else tableAdd t entries

/-- The number of chunks produced across the successfully converted PDFs of
a run: one chunk per segment of each converted document. -/
def producedChunkCount (pdfs : List PdfFile) : Nat :=
  (pdfs.map (fun p => (p.converted.getD []).length)).sum

/-- Concrete example row used by the witness theorems below. -/
def exRow : Row := ⟨"alpha text", [1, 2], [(projectKey, "Alpha")]⟩

/-- Concrete embedding client returning a fixed dimension-2 vector. -/
def exEmbedOk : String → Except String (List Int) := fun _ => Except.ok [7, 8]

/-- Concrete embedding client returning a vector of the wrong dimension. -/
def exEmbedBad : String → Except String (List Int) := fun _ => Except.ok [7]

/-! ### Lemmas on metadata lookup and dict merge -/

theorem mlookup_cons (kv : String × String) (m : Metadata) (k : String) :
    mlookup (kv :: m) k = if kv.1 = k then some kv.2 else mlookup m k := by
  unfold mlookup
  rw [List.find?_cons]
  by_cases h : kv.1 = k <;> simp [h]

theorem mlookup_append (l1 l2 : Metadata) (k : String) :
    mlookup (l1 ++ l2) k = (mlookup l1 k).or (mlookup l2 k) := by
  unfold mlookup
  rw [List.find?_append]
  cases l1.find? (fun kv => kv.1 = k) <;> simp

theorem mlookup_overrideMap (old new : Metadata) (k : String) :
    mlookup (old.map (fun kv =>
      match mlookup new kv.1 with
      | some v => (kv.1, v)
      | none => kv)) k
      = (mlookup old k).map (fun v => (mlookup new k).getD v) := by
  induction old with
  | nil => simp [mlookup]
  | cons kv old ih =>
    rw [List.map_cons]
    by_cases hk : kv.1 = k
    · cases hnew : mlookup new kv.1 <;>
        simp_all [mlookup_cons, hk, hnew]
    · cases hnew : mlookup new kv.1 <;>
        simp_all [mlookup_cons, hk, hnew]

theorem mlookup_filter_isNone (old new : Metadata) (k : String) :
    mlookup (new.filter (fun kv => (mlookup old kv.1).isNone)) k
      = if (mlookup old k).isNone then mlookup new k else none := by
  induction new with
  | nil => simp [mlookup]
  | cons kv new ih =>
    rw [List.filter_cons]
    by_cases hk : kv.1 = k
    · rw [hk]
      cases hold : (mlookup old k).isNone <;>
        simp_all [mlookup_cons, hk, hold]
    · cases hpred : (mlookup old kv.1).isNone <;>
        simp_all [mlookup_cons, hk]

/-- Lookup law of the Python merge `\x7b**old, **new\x7d`: a key maps to its
value in `new` when present there, and to its value in `old` otherwise. -/
theorem mlookup_mergeMeta (old new : Metadata) (k : String) :
    mlookup (mergeMeta old new) k = (mlookup new k).or (mlookup old k) := by
  unfold mergeMeta
  rw [mlookup_append, mlookup_overrideMap, mlookup_filter_isNone old new k]
  cases hn : mlookup new k <;> cases ho : mlookup old k <;> simp

/-! ### Claims on update_chunk_metadata -/

/-- C1: for every metadata filter, `update_chunk_metadata` returns the
number of matching rows of the vector table, and when no row matches it
returns 0 with the table left unchanged. -/
theorem claim_C1 (t : Table) (metadata_filter new_metadata : Metadata) :
    (update_chunk_metadata t metadata_filter new_metadata false).2
      = (searchWhere t metadata_filter).length ∧
    (searchWhere t metadata_filter = [] →
      update_chunk_metadata t metadata_filter new_metadata false = (t, 0)) := by
  constructor
  · unfold update_chunk_metadata
    by_cases h : searchWhere t metadata_filter = [] <;> simp [h]
  · intro h
    unfold update_chunk_metadata
    simp [h]

/-- C1 witness: on a concrete one-row table and a filter matching nothing,
the call returns 0 and leaves the table unchanged. -/
theorem claim_C1_witness :
    update_chunk_metadata [⟨"alpha text", [1, 2], [(projectKey, "Alpha")]⟩]
        [(projectKey, "Gamma")] [(tahunKey, "2024")] false
      = ([⟨"alpha text", [1, 2], [(projectKey, "Alpha")]⟩], 0) :=
  (claim_C1 [⟨"alpha text", [1, 2], [(projectKey, "Alpha")]⟩]
      [(projectKey, "Gamma")] [(tahunKey, "2024")]).2 (by decide)

/-- C2: the metadata rewrite changes only metadata.  Every non-matching row
survives unchanged; every matching row yields a rewritten copy in the final
table with the same text and vector and with metadata equal to the old
metadata merged with `new_metadata` (keys of `new_metadata` override, all
other keys are retained); and every row of the final table is either a
surviving non-matching row or the rewritten copy of some matching row. -/
theorem claim_C2 (t : Table) (metadata_filter new_metadata : Metadata) :
    (∀ r ∈ t, matchesFilter metadata_filter r.metadata = false →
       r ∈ (update_chunk_metadata t metadata_filter new_metadata false).1) ∧
    (∀ r ∈ t, matchesFilter metadata_filter r.metadata = true →
       updateRow new_metadata r
           ∈ (update_chunk_metadata t metadata_filter new_metadata false).1 ∧
       (updateRow new_metadata r).text = r.text ∧
       (updateRow new_metadata r).vector = r.vector ∧
       ∀ k, mlookup (updateRow new_metadata r).metadata k
           = (mlookup new_metadata k).or (mlookup r.metadata k)) ∧
    (∀ r ∈ (update_chunk_metadata t metadata_filter new_metadata false).1,
       (r ∈ t ∧ matchesFilter metadata_filter r.metadata = false) ∨
       ∃ s, s ∈ t ∧ matchesFilter metadata_filter s.metadata = true ∧
         r = updateRow new_metadata s) := by
  unfold update_chunk_metadata
  by_cases hdf : searchWhere t metadata_filter = []
  · have hnone : ∀ r ∈ t, ¬ (matchesFilter metadata_filter r.metadata = true) := by
      intro r hr
      exact (List.filter_eq_nil_iff.mp hdf) r hr
    refine ⟨?_, ?_, ?_⟩
    · intro r hr _
      simp [hdf, hr]
    · intro r hr hmatch
      exact absurd hmatch (hnone r hr)
    · intro r hr
      simp only [hdf, List.isEmpty_nil, if_true] at hr
      left
      exact ⟨hr, Bool.eq_false_iff.mpr (hnone r hr)⟩
  · have hne : (searchWhere t metadata_filter).isEmpty = false := by
      simp [hdf]
    refine ⟨?_, ?_, ?_⟩
    · intro r hr hmatch
      simp only [hne, Bool.false_eq_true, if_false, tableAdd, List.mem_append]
      left
      exact List.mem_filter.mpr ⟨hr, by simp [hmatch]⟩
    · intro r hr hmatch
      refine ⟨?_, rfl, rfl, fun k => mlookup_mergeMeta r.metadata new_metadata k⟩
      simp only [hne, Bool.false_eq_true, if_false, tableAdd, List.mem_append]
      right
      exact List.mem_map_of_mem _ (List.mem_filter.mpr ⟨hr, hmatch⟩)
    · intro r hr
      simp only [hne, Bool.false_eq_true, if_false, tableAdd, List.mem_append] at hr
      rcases hr with hr | hr
      · rcases List.mem_filter.mp hr with ⟨hrt, hpred⟩
        left
        exact ⟨hrt, by simpa using hpred⟩
      · rcases List.mem_map.mp hr with ⟨s, hs, hsr⟩
        rcases List.mem_filter.mp hs with ⟨hst, hsm⟩
        right
        exact ⟨s, hst, hsm, hsr.symm⟩

/-- C8: when the filtered delete raises (the code catches the exception and
continues), the old rows all remain, the rewritten copy of every matching
row is still added, the table grows by the number of matching rows (so each
matched chunk is present both as its old row and as its updated row), and
the returned count still equals the number of matching rows. -/
theorem claim_C8 (t : Table) (metadata_filter new_metadata : Metadata)
    (h : searchWhere t metadata_filter ≠ []) :
    (update_chunk_metadata t metadata_filter new_metadata true).1.length
        = t.length + (searchWhere t metadata_filter).length ∧
    (∀ r ∈ t, r ∈ (update_chunk_metadata t metadata_filter new_metadata true).1) ∧
    (∀ r ∈ t, matchesFilter metadata_filter r.metadata = true →
       updateRow new_metadata r
         ∈ (update_chunk_metadata t metadata_filter new_metadata true).1) ∧
    (update_chunk_metadata t metadata_filter new_metadata true).2
        = (searchWhere t metadata_filter).length := by
  have hne : (searchWhere t metadata_filter).isEmpty = false := by
    simp [h]
  unfold update_chunk_metadata
  simp only [hne, Bool.false_eq_true, if_false, tableAdd]
  refine ⟨by simp, ?_, ?_, by simp⟩
  · intro r hr
    exact List.mem_append_left _ hr
  · intro r hr hmatch
    exact List.mem_append_right _
      (List.mem_map_of_mem _ (List.mem_filter.mpr ⟨hr, hmatch⟩))

/-- C8 witness: one matching row; after a raising delete the table holds
the old and the rewritten row and the call returns 1. -/
theorem claim_C8_witness :
    (update_chunk_metadata [⟨"alpha text", [1, 2], [(projectKey, "Alpha")]⟩]
        [(projectKey, "Alpha")] [(tahunKey, "2024")] true).1.length
      = [(⟨"alpha text", [1, 2], [(projectKey, "Alpha")]⟩ : Row)].length
        + (searchWhere [⟨"alpha text", [1, 2], [(projectKey, "Alpha")]⟩]
            [(projectKey, "Alpha")]).length ∧
    (∀ r ∈ [(⟨"alpha text", [1, 2], [(projectKey, "Alpha")]⟩ : Row)],
       r ∈ (update_chunk_metadata [⟨"alpha text", [1, 2], [(projectKey, "Alpha")]⟩]
        [(projectKey, "Alpha")] [(tahunKey, "2024")] true).1) ∧
    (∀ r ∈ [(⟨"alpha text", [1, 2], [(projectKey, "Alpha")]⟩ : Row)],
       matchesFilter [(projectKey, "Alpha")] r.metadata = true →
       updateRow [(tahunKey, "2024")] r
         ∈ (update_chunk_metadata [⟨"alpha text", [1, 2], [(projectKey, "Alpha")]⟩]
              [(projectKey, "Alpha")] [(tahunKey, "2024")] true).1) ∧
    (update_chunk_metadata [⟨"alpha text", [1, 2], [(projectKey, "Alpha")]⟩]
        [(projectKey, "Alpha")] [(tahunKey, "2024")] true).2
      = (searchWhere [⟨"alpha text", [1, 2], [(projectKey, "Alpha")]⟩]
          [(projectKey, "Alpha")]).length :=
  claim_C8 [⟨"alpha text", [1, 2], [(projectKey, "Alpha")]⟩]
    [(projectKey, "Alpha")] [(tahunKey, "2024")] (by decide)

/-! ### Claims on rebuild_all_embeddings and retrieval_with_filter -/

/-- Successful entry building pairs every input row with an output entry of
the same text and metadata whose vector is the fresh embedding. -/
theorem rebuildEntries_ok (embed : String → Except String (List Int)) (vector_dim : Nat) :
    ∀ (rows entries : List Row), rebuildEntries embed vector_dim rows = Except.ok entries →
      List.Forall₂ (fun r r2 : Row => r2.text = r.text ∧ r2.metadata = r.metadata ∧
        embed r.text = Except.ok r2.vector) rows entries := by
  intro rows
  induction rows with
  | nil =>
    intro entries h
    unfold rebuildEntries at h
    cases h
    exact List.Forall₂.nil
  | cons r rs ih =>
    intro entries h
    unfold rebuildEntries at h
    cases he : embed r.text with
    | error e => rw [he] at h; cases h
    | ok vec =>
      rw [he] at h
      by_cases hd : vec.length = vector_dim
      · simp only [validate_vector_dim, hd, if_true] at h
        cases hrec : rebuildEntries embed vector_dim rs with
        | error e => rw [hrec] at h; cases h
        | ok es =>
          rw [hrec] at h
          cases h
          exact List.Forall₂.cons ⟨rfl, rfl, he⟩ (ih es hrec)
      · simp only [validate_vector_dim, hd, if_false] at h
        cases h

/-- C3: a successful `rebuild_all_embeddings` leaves the row count
unchanged and pairs every old row with exactly one new row of the same
text and metadata whose vector is the current embedding of that text. -/
theorem claim_C3 (t : Table) (embed : String → Except String (List Int))
    (vector_dim batch_size : Nat)
    (h : (rebuild_all_embeddings t embed vector_dim batch_size).2 = none) :
    (rebuild_all_embeddings t embed vector_dim batch_size).1.length = t.length ∧
    List.Forall₂ (fun r r2 : Row => r2.text = r.text ∧ r2.metadata = r.metadata ∧
        embed r.text = Except.ok r2.vector)
      t (rebuild_all_embeddings t embed vector_dim batch_size).1 := by
  cases hres : rebuildEntries embed vector_dim t with
  | error e =>
    simp only [rebuild_all_embeddings, hres] at h
    exact Option.noConfusion h
  | ok entries =>
    have hf := rebuildEntries_ok embed vector_dim t entries hres
    constructor
    · simp only [rebuild_all_embeddings, hres, tableAdd, reset_vectorstore,
        List.nil_append]
      exact hf.length_eq.symm
    · simp only [rebuild_all_embeddings, hres, tableAdd, reset_vectorstore,
        List.nil_append]
      exact hf

/-- C3 witness: a one-row table rebuilt with a dimension-2 embedder; the
new table has one row pairing the old one as required. -/
theorem claim_C3_witness :
    (rebuild_all_embeddings [exRow] exEmbedOk 2 100).1.length = [exRow].length ∧
    List.Forall₂ (fun r r2 : Row => r2.text = r.text ∧ r2.metadata = r.metadata ∧
        exEmbedOk r.text = Except.ok r2.vector)
      [exRow] (rebuild_all_embeddings [exRow] exEmbedOk 2 100).1 :=
  claim_C3 [exRow] exEmbedOk 2 100 rfl

/-- C9: when re-embedding or dimension validation raises, the exception
propagates before the store is reset, so the table is exactly as before. -/
theorem claim_C9 (t : Table) (embed : String → Except String (List Int))
    (vector_dim batch_size : Nat) (e : String)
    (h : (rebuild_all_embeddings t embed vector_dim batch_size).2 = some e) :
    (rebuild_all_embeddings t embed vector_dim batch_size).1 = t := by
  cases hres : rebuildEntries embed vector_dim t with
  | error e2 => simp only [rebuild_all_embeddings, hres]
  | ok entries =>
    simp only [rebuild_all_embeddings, hres] at h
    exact Option.noConfusion h

/-- C9 witness: a one-row table whose embedder returns a vector of the
wrong dimension; the rebuild raises and the table is unchanged. -/
theorem claim_C9_witness :
    (rebuild_all_embeddings [exRow] exEmbedBad 2 100).1 = [exRow] :=
  claim_C9 [exRow] exEmbedBad 2 100 ("vector dim mismatch") rfl

/-- C10: `rebuild_all_embeddings` never consults `batch_size`; any two
positive batch sizes give identical results. -/
theorem claim_C10 (t : Table) (embed : String → Except String (List Int))
    (vector_dim : Nat) (b1 b2 : Nat) (h1 : 0 < b1) (h2 : 0 < b2) :
    rebuild_all_embeddings t embed vector_dim b1
      = rebuild_all_embeddings t embed vector_dim b2 := rfl

/-- C10 witness: batch sizes 1 and 2 on a concrete table give identical
results. -/
theorem claim_C10_witness :
    0 < 1 ∧ 0 < 2 ∧
    rebuild_all_embeddings [exRow] exEmbedOk 2 1
      = rebuild_all_embeddings [exRow] exEmbedOk 2 2 :=
  ⟨by decide, by decide, claim_C10 [exRow] exEmbedOk 2 1 2 (by decide) (by decide)⟩

/-- C6: `retrieval_with_filter` is pure delegation: its answer is exactly
the pipeline retrieval applied to the same query, k and filter, and the
table is untouched. -/
theorem claim_C6 (t : Table)
    (retrieval : String → Option Nat → Option Metadata → String)
    (query : String) (k : Option Nat) (metadata_filter : Option Metadata) :
    (retrieval_with_filter t retrieval query k metadata_filter).2
        = retrieval query k metadata_filter ∧
    (retrieval_with_filter t retrieval query k metadata_filter).1 = t :=
  ⟨rfl, rfl⟩

/-! ### Claims on get_vectorstore_stats -/

theorem mem_uniqueFirst (x : String) (l : List String) :
    x ∈ uniqueFirst l ↔ x ∈ l := by
  induction l using uniqueFirst.induct with
  | case1 => simp [uniqueFirst]
  | case2 a xs ih =>
    rw [uniqueFirst, List.mem_cons, ih, List.mem_filter]
    by_cases hx : x = a <;> simp [hx]

theorem nodup_uniqueFirst (l : List String) : (uniqueFirst l).Nodup := by
  induction l using uniqueFirst.induct with
  | case1 => simp [uniqueFirst]
  | case2 a xs ih =>
    rw [uniqueFirst]
    refine List.nodup_cons.mpr ⟨?_, ih⟩
    intro hmem
    rw [mem_uniqueFirst] at hmem
    have := (List.mem_filter.mp hmem).2
    simp at this

theorem mem_value_counts (l : List String) (y : String) (n : Nat) :
    (y, n) ∈ value_counts l ↔ y ∈ l ∧ n = l.count y := by
  unfold value_counts
  constructor
  · intro h
    rcases List.mem_map.mp h with ⟨v, hv, heq⟩
    injection heq with h1 h2
    subst h1
    subst h2
    exact ⟨(mem_uniqueFirst v l).mp hv, rfl⟩
  · rintro ⟨hy, rfl⟩
    exact List.mem_map.mpr ⟨y, (mem_uniqueFirst y l).mpr hy, rfl⟩

/-- The count of a value among the looked-up metadata equals the number of
rows whose metadata carries it. -/
theorem count_filterMap_lookup (f : Row → Option String) (y : String) :
    ∀ (t : List Row),
      (t.filterMap f).count y = (t.filter (fun r => f r == some y)).length := by
  intro t
  induction t with
  | nil => rfl
  | cons r t ih =>
    cases hf : f r with
    | none => simp [List.filterMap_cons, hf, List.filter_cons, ih]
    | some v =>
      by_cases hv : v = y
      · simp [List.filterMap_cons, hf, hv, List.filter_cons, List.count_cons, ih]
      · simp [List.filterMap_cons, hf, hv, List.filter_cons, List.count_cons, ih]

/-- C7: `get_vectorstore_stats` reads the table without modifying it and
returns its row count, the distinct non-null `project` metadata values, and
the map sending each non-null `tahun` value to the number of rows carrying
it. -/
theorem claim_C7 (t : Table) (size_bytes : Nat) :
    (get_vectorstore_stats t size_bytes).1 = t ∧
    (get_vectorstore_stats t size_bytes).2.total_rows = t.length ∧
    (∀ p, p ∈ (get_vectorstore_stats t size_bytes).2.projects ↔
       ∃ r ∈ t, mlookup r.metadata projectKey = some p) ∧
    (get_vectorstore_stats t size_bytes).2.projects.Nodup ∧
    (∀ y n, (y, n) ∈ (get_vectorstore_stats t size_bytes).2.tahun_distribution ↔
       ((∃ r ∈ t, mlookup r.metadata tahunKey = some y) ∧
        n = (t.filter (fun r => mlookup r.metadata tahunKey == some y)).length)) := by
  refine ⟨rfl, rfl, ?_, ?_, ?_⟩
  · intro p
    simp only [get_vectorstore_stats]
    rw [mem_uniqueFirst]
    simp [List.mem_filterMap]
  · exact nodup_uniqueFirst _
  · intro y n
    simp only [get_vectorstore_stats]
    rw [mem_value_counts, count_filterMap_lookup]
    simp [List.mem_filterMap]

/-! ### Claims on ingestion -/

/-- Concrete embedding function for the ingestion examples. -/
def exEmbed0 : String → List Int := fun _ => [0]

/-- Every chunk produced from a document carries the project and tahun
metadata it was chunked with. -/
theorem chunk_document_meta (embed : String → List Int) (doc : List String)
    (filename project tahun : String) :
    ∀ r ∈ chunk_document embed doc filename project tahun,
      mlookup r.metadata projectKey = some project ∧
      mlookup r.metadata tahunKey = some tahun := by
  intro r hr
  rcases List.mem_map.mp hr with ⟨s, hs, rfl⟩
  constructor <;> simp +decide [mlookup_cons, projectKey, tahunKey]

theorem ingest_foldl_length (embed : String → List Int) (project tahun : String) :
    ∀ (pdfs : List PdfFile) (acc : List Row),
      (pdfs.foldl (fun acc pdf =>
        match pdf.converted with
        | some doc => acc ++ chunk_document embed doc pdf.name project tahun
        | none => acc) acc).length = acc.length + producedChunkCount pdfs := by
  intro pdfs
  induction pdfs with
  | nil =>
    intro acc
    simp [producedChunkCount]
  | cons p ps ih =>
    intro acc
    rw [List.foldl_cons]
    cases hc : p.converted with
    | none =>
      simp only [hc]
      rw [ih]
      simp [producedChunkCount, hc]
    | some doc =>
      simp only [hc]
      rw [ih]
      simp only [producedChunkCount, List.map_cons, List.sum_cons, hc,
        Option.getD_some, List.length_append, chunk_document, List.length_map]
      omega

theorem ingest_foldl_mem (embed : String → List Int) (project tahun : String) :
    ∀ (pdfs : List PdfFile) (acc : List Row) (r : Row),
      r ∈ pdfs.foldl (fun acc pdf =>
        match pdf.converted with
        | some doc => acc ++ chunk_document embed doc pdf.name project tahun
        | none => acc) acc →
      r ∈ acc ∨ (mlookup r.metadata projectKey = some project ∧
                 mlookup r.metadata tahunKey = some tahun) := by
  intro pdfs
  induction pdfs with
  | nil =>
    intro acc r h
    exact Or.inl h
  | cons p ps ih =>
    intro acc r h
    rw [List.foldl_cons] at h
    cases hc : p.converted with
    | none =>
      rw [hc] at h
      exact ih _ r h
    | some doc =>
      rw [hc] at h
      rcases ih _ r h with hacc | hmeta
      · rcases List.mem_append.mp hacc with h1 | h2
        · exact Or.inl h1
        · exact Or.inr (chunk_document_meta embed doc p.name project tahun r h2)
      · exact Or.inr hmeta

/-- `add_product_knowledge` always equals appending the collected entries:
the two early returns coincide with appending the empty entry list. -/
theorem add_product_knowledge_eq (t : Table) (embed : String → List Int)
    (pdfs : List PdfFile) (project_name tahun : String) :
    add_product_knowledge t embed pdfs project_name tahun
      = t ++ ingestEntries embed pdfs project_name tahun := by
  unfold add_product_knowledge
  by_cases h1 : pdfs.isEmpty
  · rw [if_pos h1, List.isEmpty_iff.mp h1]
    simp [ingestEntries]
  · rw [if_neg h1]
    by_cases h2 : (ingestEntries embed pdfs project_name tahun).isEmpty
    · simp only [h2, if_true]
      rw [List.isEmpty_iff.mp h2]
      simp
    · simp only [h2, Bool.false_eq_true, if_false, tableAdd]

/-- `add_kak_tor_knowledge` likewise, with the Python-or defaulted
metadata. -/
theorem add_kak_tor_knowledge_eq (t : Table) (embed : String → List Int)
    (pdfs : List PdfFile) (project tahun : Option String) :
    add_kak_tor_knowledge t embed pdfs project tahun
      = t ++ ingestEntries embed pdfs
          (pyOrDefault project ("kak_tor")) (pyOrDefault tahun ("2025")) := by
  unfold add_kak_tor_knowledge
  by_cases h1 : pdfs.isEmpty
  · rw [if_pos h1, List.isEmpty_iff.mp h1]
    simp [ingestEntries]
  · rw [if_neg h1]
    by_cases h2 : (ingestEntries embed pdfs
        (pyOrDefault project ("kak_tor")) (pyOrDefault tahun ("2025"))).isEmpty
    · simp only [h2, if_true]
      rw [List.isEmpty_iff.mp h2]
      simp
    · simp only [h2, Bool.false_eq_true, if_false, tableAdd]

/-- The collected ingestion entries number exactly the produced chunks. -/
theorem length_ingestEntries (embed : String → List Int)
    (project tahun : String) (pdfs : List PdfFile) :
    (ingestEntries embed pdfs project tahun).length = producedChunkCount pdfs := by
  unfold ingestEntries
  rw [ingest_foldl_length]
  simp

/-- Every collected ingestion entry carries the run's project and tahun
metadata. -/
theorem mem_ingestEntries (embed : String → List Int)
    (project tahun : String) (pdfs : List PdfFile) (r : Row)
    (hr : r ∈ ingestEntries embed pdfs project tahun) :
    mlookup r.metadata projectKey = some project ∧
    mlookup r.metadata tahunKey = some tahun := by
  unfold ingestEntries at hr
  rcases ingest_foldl_mem embed project tahun pdfs [] r hr with h0 | hmeta
  · exact absurd h0 (List.not_mem_nil r)
  · exact hmeta

/-- C4 counterexample: the claim fails on `add_kak_tor_knowledge` with a
supplied empty-string project.  Python `project or "kak_tor"` treats the
empty string as falsy, so the added row carries project `"kak_tor"` rather
than the supplied value `""`. -/
theorem claim_C4_counterexample :
    ¬ (∀ r ∈ add_kak_tor_knowledge [] exEmbed0 [⟨"a.pdf", some ["hello"]⟩]
          (some ("")) (some ("2024")),
        mlookup r.metadata projectKey = some ("")) := by
  decide

/-- C4 (amended): each ingestion run appends exactly one row per produced
chunk, leaving the prior rows unchanged, and every added row carries the
effective project and tahun metadata: the supplied values for
`add_product_knowledge`, and for `add_kak_tor_knowledge` the supplied
values with `None` or the empty string replaced by the defaults
`"kak_tor"` and `"2025"` (Python `or`). -/
theorem claim_C4 (t : Table) (embed : String → List Int) (pdfs : List PdfFile)
    (project_name tahun : String) (project2 tahun2 : Option String) :
    ((add_product_knowledge t embed pdfs project_name tahun).take t.length = t ∧
     (add_product_knowledge t embed pdfs project_name tahun).length
        = t.length + producedChunkCount pdfs ∧
     (∀ r ∈ (add_product_knowledge t embed pdfs project_name tahun).drop t.length,
        mlookup r.metadata projectKey = some project_name ∧
        mlookup r.metadata tahunKey = some tahun)) ∧
    ((add_kak_tor_knowledge t embed pdfs project2 tahun2).take t.length = t ∧
     (add_kak_tor_knowledge t embed pdfs project2 tahun2).length
        = t.length + producedChunkCount pdfs ∧
     (∀ r ∈ (add_kak_tor_knowledge t embed pdfs project2 tahun2).drop t.length,
        mlookup r.metadata projectKey = some (pyOrDefault project2 ("kak_tor")) ∧
        mlookup r.metadata tahunKey = some (pyOrDefault tahun2 ("2025")))) := by
  rw [add_product_knowledge_eq, add_kak_tor_knowledge_eq]
  refine ⟨⟨?_, ?_, ?_⟩, ⟨?_, ?_, ?_⟩⟩
  · exact List.take_left t _
  · rw [List.length_append, length_ingestEntries]
  · intro r hr
    rw [List.drop_left] at hr
    exact mem_ingestEntries embed project_name tahun pdfs r hr
  · exact List.take_left t _
  · rw [List.length_append, length_ingestEntries]
  · intro r hr
    rw [List.drop_left] at hr
    exact mem_ingestEntries embed (pyOrDefault project2 ("kak_tor"))
      (pyOrDefault tahun2 ("2025")) pdfs r hr

theorem ingest_foldl_all_failed (embed : String → List Int)
    (project tahun : String) :
    ∀ (pdfs : List PdfFile) (acc : List Row), (∀ p ∈ pdfs, p.converted = none) →
      pdfs.foldl (fun acc pdf =>
        match pdf.converted with
        | some doc => acc ++ chunk_document embed doc pdf.name project tahun
        | none => acc) acc = acc := by
  intro pdfs
  induction pdfs with
  | nil =>
    intro acc _
    rfl
  | cons p ps ih =>
    intro acc h
    rw [List.foldl_cons, h p (List.mem_cons_self p ps)]
    exact ih acc (fun q hq => h q (List.mem_cons_of_mem p hq))

/-- C5: a run over a directory with no PDF, or whose every PDF fails to
convert, leaves the vector table unchanged for both ingestion methods. -/
theorem claim_C5 (t : Table) (embed : String → List Int) (pdfs : List PdfFile)
    (project_name tahun : String) (project2 tahun2 : Option String)
    (h : pdfs = [] ∨ ∀ p ∈ pdfs, p.converted = none) :
    add_product_knowledge t embed pdfs project_name tahun = t ∧
    add_kak_tor_knowledge t embed pdfs project2 tahun2 = t := by
  have hnil : ∀ (proj th : String), ingestEntries embed pdfs proj th = [] := by
    intro proj th
    rcases h with rfl | hall
    · rfl
    · exact ingest_foldl_all_failed embed proj th pdfs [] hall
  rw [add_product_knowledge_eq, add_kak_tor_knowledge_eq, hnil, hnil]
  simp

/-- C5 witness: a single PDF that fails to convert; both methods leave the
empty table empty. -/
theorem claim_C5_witness :
    add_product_knowledge [] exEmbed0 [⟨"a.pdf", none⟩] ("p") ("2025") = [] ∧
    add_kak_tor_knowledge [] exEmbed0 [⟨"a.pdf", none⟩] none none = [] :=
  claim_C5 [] exEmbed0 [⟨"a.pdf", none⟩] ("p") ("2025") none none
    (Or.inr (by decide))

end RAGTools
